import Mathlib

/-!
Shallow embedding of the Recipe Explorer backend
(`src/recipe_backend/src/api/routers/recipes.py`, `src/db/models.py`,
`src/schemas/recipe.py`, `src/api/deps.py`).

Modelling conventions
* The database is an in-memory state: a list of `Recipe` rows and a list of
  `RecipeRating` rows, kept in insertion order, plus id counters and a clock.
* SQLAlchemy floats (`avg_rating`, SQL `AVG`) are modelled as exact rationals.
* SQL is interpreted over the default SQLite backend (`session.py` falls back
  to `sqlite:///./test.db`): `LIKE '%p%'` is ASCII-case-insensitive substring
  matching, `offset` and `limit` are list drop/take, and `ORDER BY` yields
  any permutation of the result set consistent with the requested ordering
  (SQL fixes no order between rows that compare equal), so `list_recipes` is
  a relation between the state and the possible outputs.
* Two expressions the router builds do not survive SQL rendering, and the
  model reflects that.  `func.cast(x, func.TEXT)` is not the `CAST`
  construct: it renders the two-argument function call `cast(x, ?)`, a
  SQLite syntax error, so every filter criterion built from it (tags,
  cuisine, difficulty, min/max time) makes the request raise and return no
  recipe — such a criterion is modelled as holding for no row.  And
  `desc(Recipe.avg_rating.nullslast())` composes the unary modifiers
  inside-out, rendering `ORDER BY avg_rating NULLS LAST DESC`, again a
  SQLite syntax error, so a `sort=rating` request raises and yields no page
  — modelled by relating no output to such a query (`orderByExecutes`).
* Python attribute resolution is modelled faithfully.  In particular the model
  class `Recipe` maps its JSON column as `recipe_metadata` because the name
  `metadata` is reserved by the SQLAlchemy declarative base (models.py lines
  84-86); the expression `Recipe.metadata` used by `_apply_filters` and the
  assignments `metadata=...` / `setattr(obj, "metadata", ...)` used by
  `create_recipe` / `update_recipe` therefore address the registry attribute,
  not the mapped column.
-/

namespace RecipeExplorer

/-- Scalar JSON values stored in the free-form `recipe_metadata` mapping
(`Dict[str, Any]` with scalar values in the schemas). -/
inductive MetaVal where
  | str (s : String)
  | int (n : Int)
deriving DecidableEq

/-- A row of the `recipes` table (models.py, class `Recipe`).  `title` is kept
optional at the object level (a Python attribute can hold `None`); the JSON
column is `recipe_metadata`, an optional string-keyed mapping; `avg_rating` is
the derived nullable average; `created_at` is an abstract timestamp. -/
structure Recipe where
  id : Nat
  owner_id : Nat
  title : Option String
  description : Option String
  ingredients : Option (List String)
  steps : Option (List String)
  tags : Option (List String)
  recipe_metadata : Option (List (String × MetaVal))
  avg_rating : Option ℚ
  created_at : Nat
deriving DecidableEq

/-- A row of the `recipe_ratings` table (models.py, class `RecipeRating`). -/
structure RecipeRating where
  id : Nat
  user_id : Nat
  recipe_id : Nat
  rating : Int
  comment : Option String
deriving DecidableEq

/-- The persisted store: the two tables in insertion order, fresh-id counters
for the integer primary keys, and a clock supplying `created_at`. -/
structure DB where
  recipes : List Recipe
  ratings : List RecipeRating
  nextRecipeId : Nat
  nextRatingId : Nat
  now : Nat
deriving DecidableEq

/-- Outward error signals raised by the handlers (`HTTPException` 404/403 and
the pydantic 422 validation failure). -/
inductive ApiError where
  | notFound
  | forbidden
  | validationError
deriving DecidableEq

/-- The query parameters of `list_recipes` (recipes.py lines 49-59). -/
structure Query where
  search : Option String := none
  tags : Option (List String) := none
  cuisine : Option String := none
  difficulty : Option String := none
  min_time : Option Int := none
  max_time : Option Int := none
  sort : Option String := some "newest"
  page : Option Int := some 1
  page_size : Option Int := some 20
deriving DecidableEq

/-- A pydantic partial-update field: either absent from the request
(excluded by `model_dump(exclude_unset=True)`) or explicitly set. -/
inductive Upd (α : Type) where
  | unset
  | setTo (v : α)
deriving DecidableEq

/-- The `RecipeUpdate` schema (recipe.py lines 29-38): every field optional,
and a field explicitly supplied as `null` is distinct from an absent field. -/
structure RecipeUpdate where
  title : Upd (Option String) := .unset
  description : Upd (Option String) := .unset
  ingredients : Upd (Option (List String)) := .unset
  steps : Upd (Option (List String)) := .unset
  tags : Upd (Option (List String)) := .unset
  metadata : Upd (Option (List (String × MetaVal))) := .unset
deriving DecidableEq

/-- The `RecipeCreate` schema (recipe.py lines 6-26): required title,
everything else optional. -/
structure RecipeCreate where
  title : String
  description : Option String := none
  ingredients : Option (List String) := none
  steps : Option (List String) := none
  tags : Option (List String) := none
  metadata : Option (List (String × MetaVal)) := none
deriving DecidableEq

/-- One invocation of the rate endpoint: acting user, recipe id, score,
optional comment. -/
structure RateCall where
  uid : Nat
  rid : Nat
  score : Int
  comment : Option String
deriving DecidableEq

/-! ### List helpers mirroring ORM row access -/

/-- Replace the first element satisfying `p` by its image under `f`; this is
the effect of fetching a row with `.first()` and mutating it in place. -/
def updateFirst (p : α → Bool) (f : α → α) : List α → List α
  | [] => []
  | x :: xs => if p x then f x :: xs else x :: updateFirst p f xs

/-! ### LIKE matching (used by the title search, the one valid LIKE) -/

/-- ASCII lower-casing of one character (the case folding SQLite's `LIKE` and
`lower()` perform). -/
def lowerChar (c : Char) : Char :=
  if 65 ≤ c.toNat ∧ c.toNat ≤ 90 then Char.ofNat (c.toNat + 32) else c

/-- Does `n` occur at the head of `h`? -/
def leadMatch : List Char → List Char → Bool
  | [], _ => true
  | _ :: _, [] => false
  | a :: as, b :: bs => a == b && leadMatch as bs

/-- Does `n` occur as a contiguous run inside `h`? -/
def hasSub (n : List Char) : List Char → Bool
  | [] => n.isEmpty
  | c :: rest => leadMatch n (c :: rest) || hasSub n rest

/-- SQLite `operand LIKE '%needle%'` semantics: substring matching,
case-insensitive for ASCII letters. -/
def likeContains (needle hay : String) : Bool :=
  hasSub (needle.data.map lowerChar) (hay.data.map lowerChar)

/-! ### Rating aggregation -/

/-- Arithmetic mean of a list of integer scores, as an exact rational
(SQL `AVG`). -/
def avgOf (scores : List Int) : ℚ :=
  ((scores.map (fun n => (n : ℚ))).sum) / (scores.length : ℚ)

/-- The aggregate read of recipes.py line 189:
`SELECT AVG(rating) FROM recipe_ratings WHERE recipe_id = rid`, which is
`NULL` when no row matches. -/
def ratingAvg (ratings : List RecipeRating) (rid : Nat) : Option ℚ :=
  let rs := ratings.filter (fun rr => rr.recipe_id == rid)
  if rs.isEmpty then none else some (avgOf (rs.map (fun rr => rr.rating)))

/-- The row predicate of the `(user_id, recipe_id)` pair lookup
(recipes.py lines 173-177). -/
def pairB (uid rid : Nat) (rr : RecipeRating) : Bool :=
  rr.user_id == uid && rr.recipe_id == rid

/-- The row predicate of a primary-key lookup on `recipes`. -/
def idB (rid : Nat) (r : Recipe) : Bool :=
  r.id == rid

/-! ### Handlers -/

/-- Handler `create_recipe` (recipes.py lines 80-101).  The constructor keyword
`metadata=recipe.metadata` assigns the unmapped reserved attribute `metadata`,
not the mapped column `recipe_metadata`, so the stored JSON column keeps its
default `NULL`. -/
def create_recipe (db : DB) (uid : Nat) (rc : RecipeCreate) : DB × Recipe :=
  let obj : Recipe :=
    { id := db.nextRecipeId
      owner_id := uid
      title := some rc.title
      description := rc.description
      ingredients := rc.ingredients
      steps := rc.steps
      tags := rc.tags
      recipe_metadata := none
      avg_rating := none
      created_at := db.now }
  ({ db with
      recipes := db.recipes ++ [obj]
      nextRecipeId := db.nextRecipeId + 1
      now := db.now + 1 }, obj)

/-- Apply a partial update to a recipe row: `setattr(obj, field, value)` for
every field present in `model_dump(exclude_unset=True)` (recipes.py lines
131-132).  For the field named `metadata` the `setattr` writes the unmapped
reserved attribute, so the stored `recipe_metadata` column is unchanged. -/
def applyUpd (r : Recipe) (u : RecipeUpdate) : Recipe :=
  { r with
    title := match u.title with | .unset => r.title | .setTo v => v
    description := match u.description with | .unset => r.description | .setTo v => v
    ingredients := match u.ingredients with | .unset => r.ingredients | .setTo v => v
    steps := match u.steps with | .unset => r.steps | .setTo v => v
    tags := match u.tags with | .unset => r.tags | .setTo v => v }

/-- Handler `update_recipe` (recipes.py lines 115-137): 404 when the id does not
resolve, 403 when the acting user is not the owner, otherwise overwrite
exactly the supplied fields on the fetched row and return it. -/
def update_recipe (db : DB) (rid uid : Nat) (u : RecipeUpdate) :
    DB × Except ApiError Recipe :=
  match db.recipes.find? (idB rid) with
  | none => (db, .error .notFound)
  | some r0 =>
    if r0.owner_id ≠ uid then (db, .error .forbidden)
    else
      let r' := applyUpd r0 u
      ({ db with recipes := updateFirst (idB rid) (fun _ => r') db.recipes }, .ok r')

/-- Handler `delete_recipe` (recipes.py lines 140-156). -/
def delete_recipe (db : DB) (rid uid : Nat) : DB × Except ApiError Unit :=
  match db.recipes.find? (idB rid) with
  | none => (db, .error .notFound)
  | some r0 =>
    if r0.owner_id ≠ uid then (db, .error .forbidden)
    else
      ({ db with
          recipes := db.recipes.filter (fun r => !(idB rid r))
          ratings := db.ratings.filter (fun rr => !(rr.recipe_id == rid)) }, .ok ())

/-- The rating upsert of recipes.py lines 173-186: the `(user, recipe)` rating
row is overwritten in place when present and appended otherwise. -/
def upsertRatings (db : DB) (uid rid : Nat) (score : Int) (comment : Option String) :
    List RecipeRating :=
  match db.ratings.find? (pairB uid rid) with
  | some e =>
      updateFirst (pairB uid rid)
        (fun _ => { e with rating := score, comment := comment }) db.ratings
  | none =>
      db.ratings ++ [{ id := db.nextRatingId, user_id := uid, recipe_id := rid,
                       rating := score, comment := comment }]

/-- The fresh-id counter after the upsert: an insert consumes one id. -/
def nextRatingIdAfter (db : DB) (uid rid : Nat) : Nat :=
  match db.ratings.find? (pairB uid rid) with
  | some _ => db.nextRatingId
  | none => db.nextRatingId + 1

/-- Handler `rate_recipe` (recipes.py lines 159-194).  The request body is validated
first (`RatingCreate.rating` carries `ge=1, le=5`, enforced by pydantic before
the handler body runs); then the recipe is fetched (404 when absent); then the
`(user, recipe)` rating row is upserted; finally the average is recomputed
from all current rating rows of the recipe and stored on the recipe row,
which is returned. -/
def rate_recipe (db : DB) (uid rid : Nat) (score : Int) (comment : Option String) :
    DB × Except ApiError Recipe :=
  if score < 1 ∨ 5 < score then (db, .error .validationError)
  else
    match db.recipes.find? (idB rid) with
    | none => (db, .error .notFound)
    | some rf =>
      let ratings' := upsertRatings db uid rid score comment
      let r' := { rf with avg_rating := ratingAvg ratings' rid }
      ({ db with
          recipes := updateFirst (idB rid) (fun _ => r') db.recipes
          ratings := ratings'
          nextRatingId := nextRatingIdAfter db uid rid }, .ok r')

/-- The state reached after one rate call (a failed call leaves the state
unchanged). -/
def applyRate (db : DB) (c : RateCall) : DB :=
  (rate_recipe db c.uid c.rid c.score c.comment).1

/-- The state reached after a completed sequence of rate calls. -/
def applyRates (db : DB) (cs : List RateCall) : DB :=
  cs.foldl applyRate db

/-! ### The list endpoint -/

/-- Helper `pagination_params` (deps.py lines 35-43): falsy (`None` or `0`) page and
page size fall back to 1 and 20, values below 1 clamp to 1 and 20, and the
result is `(offset, limit) = ((page-1)*page_size, page_size)`. -/
def pagination_params (page page_size : Option Int) : Nat × Nat :=
  let p := match page with | none => 1 | some v => if v = 0 then 1 else v
  let ps := match page_size with | none => 20 | some v => if v = 0 then 20 else v
  let p := if p < 1 then 1 else p
  let ps := if ps < 1 then 20 else ps
  (((p - 1) * ps).toNat, ps.toNat)

/-- Offset of a query's page. -/
def qOffset (q : Query) : Nat := (pagination_params q.page q.page_size).1

/-- Limit of a query's page. -/
def qLimit (q : Query) : Nat := (pagination_params q.page q.page_size).2

/-- The row predicate assembled by `_apply_filters` (recipes.py lines 15-45),
a conjunction of the supplied criteria:
* `search` (skipped when empty, Python truthiness): `lower(title) LIKE
  '%search.lower()%'` — the one criterion that renders valid SQL; a `NULL`
  title never matches.
* `tags` (skipped when the list is empty): each requested tag appends
  `func.cast(Recipe.tags, func.TEXT).like('%t%')`, whose rendered SQL
  `cast(tags, ?)` is a SQLite syntax error, so a tag-filtered request raises
  and returns no recipe: the criterion is modelled as holding for no row.
* `cuisine` / `difficulty` (skipped when empty): the LIKE operand is
  `func.cast(Recipe.metadata, func.TEXT)` — the same un-executable `cast`
  call, whose first argument is moreover the declarative registry's reserved
  `metadata` attribute rather than the `recipe_metadata` column (models.py
  maps the JSON column as `recipe_metadata` precisely because `metadata` is
  reserved) — so the criterion holds for no row.
* `min_time` / `max_time`: the same un-executable operand matched against
  the end-anchored pattern `'%"time":'` with no numeric comparison at all
  (the code comment says the strict compare is skipped): the criterion holds
  for no row. -/
def apply_filters (q : Query) (r : Recipe) : Bool :=
  (match q.search with
    | none => true
    | some s =>
      if s = "" then true
      else match r.title with
        | none => false
        | some t => likeContains s t)
  && (match q.tags with
    | none => true
    | some ts => if ts.isEmpty then true else false)
  && (match q.cuisine with
    | none => true
    | some c => if c = "" then true else false)
  && (match q.difficulty with
    | none => true
    | some d => if d = "" then true else false)
  && (match q.min_time with
    | none => true
    | some _ => false)
  && (match q.max_time with
    | none => true
    | some _ => false)

/-- Does the `ORDER BY` clause the handler builds render executable SQL?
`oldest` and the default `newest` render `created_at ASC`/`created_at DESC`,
which execute.  For `sort=rating` the source composes
`desc(Recipe.avg_rating.nullslast())` (recipes.py line 71); SQLAlchemy
renders the unary modifiers inside-out as `ORDER BY avg_rating NULLS LAST
DESC`, a SQLite syntax error, so every `sort=rating` request raises and
yields no page. -/
def orderByExecutes (sort : Option String) : Bool :=
  !(sort == some "rating")

/-- May row `a` be placed before row `b` under the requested sort
(recipes.py lines 68-73)?  `oldest` orders by `created_at` ascending and
every other value (including the default `newest`) by `created_at`
descending.  Rows that compare equal under the key may appear in either
order: the `ORDER BY` lists no further column, so SQL fixes no order
between them.  The `rating` branch records the nulls-last descending
ordering the expression `desc(avg_rating.nullslast())` names, but it is
unreachable: that clause does not render executable SQL (see
`orderByExecutes`), so no rating-ordered page ever exists. -/
def rcmp (sort : Option String) (a b : Recipe) : Bool :=
  if sort = some "oldest" then a.created_at ≤ b.created_at
  else if sort = some "rating" then
    match a.avg_rating, b.avg_rating with
    | some x, some y => y ≤ x
    | some _, none => true
    | none, some _ => false
    | none, none => true
  else b.created_at ≤ a.created_at

/-- The filtered result set, in table order. -/
def filteredRecipes (db : DB) (q : Query) : List Recipe :=
  db.recipes.filter (apply_filters q)

/-- Handler `list_recipes` (recipes.py lines 48-77) as a relation between the
state and the possible responses: when the assembled `ORDER BY` renders
executable SQL, the database returns the filtered rows in some order
consistent with the requested sort and the handler takes the
`offset`/`limit` slice of that order; when it does not (`sort=rating`, see
`orderByExecutes`), the request raises and no response is related to the
query. -/
def list_recipes (db : DB) (q : Query) (out : List Recipe) : Prop :=
  orderByExecutes q.sort = true ∧
  ∃ l : List Recipe,
    l.Perm (filteredRecipes db q) ∧
    l.Pairwise (fun a b => rcmp q.sort a b = true) ∧
    out = (l.drop (qOffset q)).take (qLimit q)

/-! ### Invariants -/

/-- The derived-average invariant of spec section 3: every stored recipe's
`avg_rating` agrees with the aggregate of the current rating rows. -/
def AvgInv (db : DB) : Prop :=
  ∀ r ∈ db.recipes, r.avg_rating = ratingAvg db.ratings r.id

/-- Primary-key uniqueness of the `recipes` table. -/
def NodupIds (db : DB) : Prop :=
  (db.recipes.map (fun r => r.id)).Nodup

/-- The `uq_user_recipe_rating` unique constraint (models.py lines 107-109):
no two rating rows share the `(user_id, recipe_id)` pair. -/
def UniqPairs (ratings : List RecipeRating) : Prop :=
  ratings.Pairwise (fun a b => a.user_id ≠ b.user_id ∨ a.recipe_id ≠ b.recipe_id)

instance (db : DB) : Decidable (AvgInv db) :=
  inferInstanceAs (Decidable (∀ r ∈ db.recipes, r.avg_rating = ratingAvg db.ratings r.id))

instance (db : DB) : Decidable (NodupIds db) :=
  inferInstanceAs (Decidable ((db.recipes.map (fun r : Recipe => r.id)).Nodup))

instance (ratings : List RecipeRating) : Decidable (UniqPairs ratings) :=
  inferInstanceAs (Decidable (ratings.Pairwise
    (fun a b : RecipeRating => a.user_id ≠ b.user_id ∨ a.recipe_id ≠ b.recipe_id)))

/-! ### Generic lemmas about the list helpers -/

theorem find?_eq_head?_filter (p : α → Bool) (l : List α) :
    l.find? p = (l.filter p).head? := by
  induction l with
  | nil => rfl
  | cons x xs ih =>
    by_cases h : p x = true
    · rw [List.find?_cons_of_pos _ h, List.filter_cons_of_pos h]
      rfl
    · rw [List.find?_cons_of_neg _ h, List.filter_cons_of_neg (by simpa using h), ih]

theorem filter_eq_nil_of_find?_none (p : α → Bool) (l : List α)
    (h : l.find? p = none) : l.filter p = [] := by
  rw [List.filter_eq_nil_iff]
  intro a ha
  simpa using List.find?_eq_none.1 h a ha

theorem map_id_of_mem (l : List α) (f : α → α) (h : ∀ a ∈ l, f a = a) :
    l.map f = l := by
  induction l with
  | nil => rfl
  | cons x xs ih =>
    simp only [List.map_cons, h x (List.mem_cons_self x xs)]
    rw [ih (fun a ha => h a (List.mem_cons_of_mem x ha))]

theorem filter_eq_nil_of_countP_zero (p : α → Bool) (l : List α)
    (h : l.countP p = 0) : l.filter p = [] := by
  rw [List.filter_eq_nil_iff]
  intro a ha
  simpa using List.countP_eq_zero.1 h a ha

theorem countP_tail_zero (p : α → Bool) (x : α) (xs : List α)
    (h : (x :: xs).countP p ≤ 1) (hx : p x = true) : xs.countP p = 0 := by
  rw [List.countP_cons_of_pos _ _ hx] at h
  omega

theorem filter_eq_singleton_of_find? (p : α → Bool) (l : List α) (e : α)
    (h1 : l.countP p ≤ 1) (h2 : l.find? p = some e) : l.filter p = [e] := by
  induction l with
  | nil => simp at h2
  | cons x xs ih =>
    by_cases h : p x = true
    · rw [List.find?_cons_of_pos _ h] at h2
      cases h2
      rw [List.filter_cons_of_pos h,
        filter_eq_nil_of_countP_zero p xs (countP_tail_zero p e xs h1 h)]
    · rw [List.find?_cons_of_neg _ h] at h2
      rw [List.filter_cons_of_neg (by simpa using h)]
      refine ih ?_ h2
      rw [List.countP_cons_of_neg _ _ (by simpa using h)] at h1
      exact h1

theorem updateFirst_of_find?_none (p : α → Bool) (f : α → α) (l : List α)
    (h : l.find? p = none) : updateFirst p f l = l := by
  induction l with
  | nil => rfl
  | cons x xs ih =>
    rw [List.find?_cons] at h
    by_cases hx : p x = true
    · simp [hx] at h
    · rw [updateFirst, if_neg (by simpa using hx)]
      simp only [hx, Bool.false_eq_true, if_false] at h
      rw [ih h]

theorem mem_updateFirst (p : α → Bool) (y : α) (l : List α) (b : α)
    (hb : b ∈ updateFirst p (fun _ => y) l) : b = y ∨ b ∈ l := by
  induction l with
  | nil => simp [updateFirst] at hb
  | cons x xs ih =>
    rw [updateFirst] at hb
    by_cases hx : p x = true
    · rw [if_pos hx] at hb
      rcases List.mem_cons.1 hb with h | h
      · exact Or.inl h
      · exact Or.inr (List.mem_cons_of_mem x h)
    · rw [if_neg (by simpa using hx)] at hb
      rcases List.mem_cons.1 hb with h | h
      · exact Or.inr (h ▸ List.mem_cons_self x xs)
      · rcases ih h with h' | h'
        · exact Or.inl h'
        · exact Or.inr (List.mem_cons_of_mem x h')

theorem updateFirst_eq_map (p : α → Bool) (y : α) (l : List α)
    (h : l.countP p ≤ 1) :
    updateFirst p (fun _ => y) l = l.map (fun x => if p x then y else x) := by
  induction l with
  | nil => rfl
  | cons x xs ih =>
    by_cases hx : p x = true
    · rw [updateFirst, if_pos hx, List.map_cons, if_pos hx]
      have h0 := countP_tail_zero p x xs h hx
      rw [map_id_of_mem xs _ (fun a ha => by
        have : ¬ p a = true := by simpa using List.countP_eq_zero.1 h0 a ha
        simp [this])]
    · rw [updateFirst, if_neg (by simpa using hx), List.map_cons, if_neg hx]
      rw [ih (by rw [List.countP_cons_of_neg _ _ (by simpa using hx)] at h; exact h)]

theorem find?_updateFirst_pos (p : α → Bool) (y : α) (l : List α) (e : α)
    (h : l.find? p = some e) (hy : p y = true) :
    (updateFirst p (fun _ => y) l).find? p = some y := by
  induction l with
  | nil => simp at h
  | cons x xs ih =>
    by_cases hx : p x = true
    · rw [updateFirst, if_pos hx]
      exact List.find?_cons_of_pos _ hy
    · rw [List.find?_cons_of_neg _ hx] at h
      rw [updateFirst, if_neg (by simpa using hx)]
      rw [List.find?_cons_of_neg _ hx]
      exact ih h

theorem filter_updateFirst_pos (p : α → Bool) (y : α) (l : List α) (e : α)
    (h1 : l.countP p ≤ 1) (h2 : l.find? p = some e) (hy : p y = true) :
    (updateFirst p (fun _ => y) l).filter p = [y] := by
  induction l with
  | nil => simp at h2
  | cons x xs ih =>
    by_cases hx : p x = true
    · rw [updateFirst, if_pos hx, List.filter_cons_of_pos hy,
        filter_eq_nil_of_countP_zero p xs (countP_tail_zero p x xs h1 hx)]
    · rw [List.find?_cons_of_neg _ hx] at h2
      rw [updateFirst, if_neg (by simpa using hx),
        List.filter_cons_of_neg (by simpa using hx)]
      refine ih ?_ h2
      rw [List.countP_cons_of_neg _ _ (by simpa using hx)] at h1
      exact h1

theorem filter_updateFirst_neg (p q : α → Bool) (f : α → α) (l : List α)
    (h : ∀ x, p x = true → q x = false ∧ q (f x) = false) :
    (updateFirst p f l).filter q = l.filter q := by
  induction l with
  | nil => rfl
  | cons x xs ih =>
    by_cases hx : p x = true
    · rw [updateFirst, if_pos hx, List.filter_cons_of_neg (by simp [(h x hx).2]),
        List.filter_cons_of_neg (by simp [(h x hx).1])]
    · rw [updateFirst, if_neg (by simpa using hx)]
      by_cases hq : q x = true
      · rw [List.filter_cons_of_pos hq, List.filter_cons_of_pos hq, ih]
      · rw [List.filter_cons_of_neg (by simpa using hq),
          List.filter_cons_of_neg (by simpa using hq), ih]

theorem map_congr_mem (l : List α) (f g : α → β) (h : ∀ a ∈ l, f a = g a) :
    l.map f = l.map g := by
  induction l with
  | nil => rfl
  | cons x xs ih =>
    rw [List.map_cons, List.map_cons, h x (List.mem_cons_self x xs),
      ih (fun a ha => h a (List.mem_cons_of_mem x ha))]

/-! ### Lemmas about the model's predicates and invariants -/

theorem pairB_iff (u rid : Nat) (x : RecipeRating) :
    pairB u rid x = true ↔ x.user_id = u ∧ x.recipe_id = rid := by
  simp [pairB]

theorem idB_iff (rid : Nat) (x : Recipe) : idB rid x = true ↔ x.id = rid := by
  simp [idB]

theorem countP_pair_le_one (l : List RecipeRating) (hu : UniqPairs l) (u rid : Nat) :
    l.countP (pairB u rid) ≤ 1 := by
  induction l with
  | nil => simp
  | cons x xs ih =>
    rcases List.pairwise_cons.1 hu with ⟨hx, htail⟩
    by_cases h : pairB u rid x = true
    · have h0 : xs.countP (pairB u rid) = 0 := by
        rw [List.countP_eq_zero]
        intro a ha
        rcases (pairB_iff u rid x).1 h with ⟨h1, h2⟩
        intro hpa
        rcases (pairB_iff u rid a).1 hpa with ⟨ha1, ha2⟩
        rcases hx a ha with hne | hne
        · exact hne (h1.trans ha1.symm)
        · exact hne (h2.trans ha2.symm)
      rw [List.countP_cons_of_pos _ _ h, h0]
    · rw [List.countP_cons_of_neg _ _ (by simpa using h)]
      exact ih htail

theorem countP_id_le_one (l : List Recipe) (h : (l.map (fun r => r.id)).Nodup)
    (rid : Nat) : l.countP (idB rid) ≤ 1 := by
  induction l with
  | nil => simp
  | cons x xs ih =>
    rw [List.map_cons, List.nodup_cons] at h
    by_cases hx : idB rid x = true
    · have h0 : xs.countP (idB rid) = 0 := by
        rw [List.countP_eq_zero]
        intro a ha
        simp only [idB_iff]
        intro hra
        exact h.1 (List.mem_map.2 ⟨a, ha, (hra.trans ((idB_iff rid x).1 hx).symm)⟩)
      rw [List.countP_cons_of_pos _ _ hx, h0]
    · rw [List.countP_cons_of_neg _ _ (by simpa using hx)]
      exact ih h.2

theorem uniqPairs_updateFirst (u rid : Nat) (y : RecipeRating) (l : List RecipeRating)
    (hu : UniqPairs l) (hy : pairB u rid y = true) :
    UniqPairs (updateFirst (pairB u rid) (fun _ => y) l) := by
  induction l with
  | nil => exact hu
  | cons x xs ih =>
    rcases List.pairwise_cons.1 hu with ⟨hx, htail⟩
    by_cases h : pairB u rid x = true
    · rw [updateFirst, if_pos h]
      refine List.pairwise_cons.2 ⟨?_, htail⟩
      intro b hb
      rcases (pairB_iff u rid x).1 h with ⟨h1, h2⟩
      rcases (pairB_iff u rid y).1 hy with ⟨hy1, hy2⟩
      rcases hx b hb with hne | hne
      · refine Or.inl ?_
        rw [hy1]
        rw [h1] at hne
        exact hne
      · refine Or.inr ?_
        rw [hy2]
        rw [h2] at hne
        exact hne
    · rw [updateFirst, if_neg (by simpa using h)]
      refine List.pairwise_cons.2 ⟨?_, ih htail⟩
      intro b hb
      rcases mem_updateFirst _ _ _ _ hb with hb' | hb'
      · rcases (pairB_iff u rid y).1 hy with ⟨hy1, hy2⟩
        have h' : ¬ (x.user_id = u ∧ x.recipe_id = rid) := by
          simpa [pairB_iff] using h
        subst hb'
        by_cases hxu : x.user_id = u
        · exact Or.inr (by rw [hy2]; exact fun hc => h' ⟨hxu, hc⟩)
        · exact Or.inl (by rw [hy1]; exact hxu)
      · exact hx b hb'

theorem uniqPairs_append (u rid : Nat) (y : RecipeRating) (l : List RecipeRating)
    (hu : UniqPairs l) (hy : pairB u rid y = true)
    (hn : l.find? (pairB u rid) = none) : UniqPairs (l ++ [y]) := by
  rw [UniqPairs, List.pairwise_append]
  refine ⟨hu, List.pairwise_singleton _ _, ?_⟩
  intro a ha b hb
  rw [List.mem_singleton] at hb
  have h' : ¬ (a.user_id = u ∧ a.recipe_id = rid) := by
    simpa [pairB_iff] using List.find?_eq_none.1 hn a ha
  rcases (pairB_iff u rid y).1 hy with ⟨hy1, hy2⟩
  subst hb
  by_cases hau : a.user_id = u
  · refine Or.inr ?_
    rw [hy2]
    exact fun hc => h' ⟨hau, hc⟩
  · refine Or.inl ?_
    rw [hy1]
    exact hau

theorem ratingAvg_congr (l l' : List RecipeRating) (j : Nat)
    (h : l.filter (fun rr => rr.recipe_id == j) = l'.filter (fun rr => rr.recipe_id == j)) :
    ratingAvg l j = ratingAvg l' j := by
  rw [ratingAvg, ratingAvg, h]

/-! ### Characterizations of the upsert and of rate calls -/

theorem upsertRatings_found (db : DB) (uid rid : Nat) (s : Int) (c : Option String)
    (e : RecipeRating) (hc : db.ratings.find? (pairB uid rid) = some e) :
    upsertRatings db uid rid s c =
      updateFirst (pairB uid rid) (fun _ => { e with rating := s, comment := c })
        db.ratings := by
  rw [upsertRatings, hc]

theorem upsertRatings_new (db : DB) (uid rid : Nat) (s : Int) (c : Option String)
    (hc : db.ratings.find? (pairB uid rid) = none) :
    upsertRatings db uid rid s c =
      db.ratings ++ [{ id := db.nextRatingId, user_id := uid, recipe_id := rid,
                       rating := s, comment := c }] := by
  rw [upsertRatings, hc]

theorem filter_pair_upsert_new (db : DB) (uid rid : Nat) (s : Int) (c : Option String)
    (hc : db.ratings.find? (pairB uid rid) = none) :
    (upsertRatings db uid rid s c).filter (pairB uid rid) =
      [{ id := db.nextRatingId, user_id := uid, recipe_id := rid,
         rating := s, comment := c }] := by
  rw [upsertRatings_new db uid rid s c hc, List.filter_append,
    filter_eq_nil_of_find?_none _ _ hc]
  simp [pairB]

theorem filter_pair_upsert_found (db : DB) (uid rid : Nat) (s : Int) (c : Option String)
    (e : RecipeRating) (hc : db.ratings.find? (pairB uid rid) = some e)
    (hu1 : db.ratings.countP (pairB uid rid) ≤ 1) :
    (upsertRatings db uid rid s c).filter (pairB uid rid) =
      [{ id := e.id, user_id := uid, recipe_id := rid, rating := s, comment := c }] := by
  rcases (pairB_iff uid rid e).1 (List.find?_some hc) with ⟨h1, h2⟩
  rw [upsertRatings_found db uid rid s c e hc,
    filter_updateFirst_pos (pairB uid rid) _ db.ratings e hu1 hc
      (by rw [pairB_iff]; exact ⟨h1, h2⟩)]
  have : ({ e with rating := s, comment := c } : RecipeRating) =
      { id := e.id, user_id := uid, recipe_id := rid, rating := s, comment := c } := by
    cases e
    simp only at h1 h2
    rw [h1, h2]
  rw [this]

theorem filter_notpair_upsert (db : DB) (uid rid : Nat) (s : Int) (c : Option String) :
    (upsertRatings db uid rid s c).filter (fun rr => !(pairB uid rid rr)) =
      db.ratings.filter (fun rr => !(pairB uid rid rr)) := by
  cases hc : db.ratings.find? (pairB uid rid) with
  | some e =>
    rw [upsertRatings_found db uid rid s c e hc]
    refine filter_updateFirst_neg _ _ _ _ ?_
    intro x hx
    constructor
    · simp [hx]
    · rcases (pairB_iff uid rid e).1 (List.find?_some hc) with ⟨h1, h2⟩
      simp [pairB_iff, h1, h2]
  | none =>
    rw [upsertRatings_new db uid rid s c hc, List.filter_append]
    simp [pairB]

theorem filter_rid_upsert_other (db : DB) (uid rid : Nat) (s : Int) (c : Option String)
    (j : Nat) (hj : j ≠ rid) :
    (upsertRatings db uid rid s c).filter (fun rr => rr.recipe_id == j) =
      db.ratings.filter (fun rr => rr.recipe_id == j) := by
  cases hc : db.ratings.find? (pairB uid rid) with
  | some e =>
    rcases (pairB_iff uid rid e).1 (List.find?_some hc) with ⟨h1, h2⟩
    rw [upsertRatings_found db uid rid s c e hc]
    refine filter_updateFirst_neg _ _ _ _ ?_
    intro x hx
    rcases (pairB_iff uid rid x).1 hx with ⟨_, hx2⟩
    constructor
    · simp [hx2, Ne.symm hj]
    · simp [h2, Ne.symm hj]
  | none =>
    rw [upsertRatings_new db uid rid s c hc, List.filter_append]
    simp [Ne.symm hj]

theorem uniqPairs_upsert (db : DB) (uid rid : Nat) (s : Int) (c : Option String)
    (hu : UniqPairs db.ratings) : UniqPairs (upsertRatings db uid rid s c) := by
  cases hc : db.ratings.find? (pairB uid rid) with
  | some e =>
    rcases (pairB_iff uid rid e).1 (List.find?_some hc) with ⟨h1, h2⟩
    rw [upsertRatings_found db uid rid s c e hc]
    exact uniqPairs_updateFirst uid rid _ db.ratings hu (by simp [pairB_iff, h1, h2])
  | none =>
    rw [upsertRatings_new db uid rid s c hc]
    exact uniqPairs_append uid rid _ db.ratings hu (by simp [pairB]) hc

theorem rate_recipe_invalid (db : DB) (uid rid : Nat) (s : Int) (c : Option String)
    (hv : s < 1 ∨ 5 < s) :
    rate_recipe db uid rid s c = (db, .error .validationError) := by
  rw [rate_recipe, if_pos hv]

theorem rate_recipe_notFound (db : DB) (uid rid : Nat) (s : Int) (c : Option String)
    (hv : ¬(s < 1 ∨ 5 < s)) (hf : db.recipes.find? (idB rid) = none) :
    rate_recipe db uid rid s c = (db, .error .notFound) := by
  rw [rate_recipe, if_neg hv, hf]

theorem rate_recipe_success (db : DB) (uid rid : Nat) (s : Int) (c : Option String)
    (rf : Recipe) (hv : ¬(s < 1 ∨ 5 < s)) (hf : db.recipes.find? (idB rid) = some rf) :
    rate_recipe db uid rid s c =
      ({ db with
          recipes := updateFirst (idB rid)
            (fun _ => { rf with avg_rating := ratingAvg (upsertRatings db uid rid s c) rid })
            db.recipes
          ratings := upsertRatings db uid rid s c
          nextRatingId := nextRatingIdAfter db uid rid },
        .ok { rf with avg_rating := ratingAvg (upsertRatings db uid rid s c) rid }) := by
  rw [rate_recipe, if_neg hv, hf]

/-! ### Preservation of the invariants by rate calls -/

theorem rate_preserves (db : DB) (c : RateCall) (h1 : NodupIds db) (h2 : AvgInv db) :
    NodupIds (applyRate db c) ∧ AvgInv (applyRate db c) := by
  by_cases hv : c.score < 1 ∨ 5 < c.score
  · rw [applyRate, rate_recipe_invalid db c.uid c.rid c.score c.comment hv]
    exact ⟨h1, h2⟩
  · cases hf : db.recipes.find? (idB c.rid) with
    | none =>
      rw [applyRate, rate_recipe_notFound db c.uid c.rid c.score c.comment hv hf]
      exact ⟨h1, h2⟩
    | some rf =>
      rw [applyRate, rate_recipe_success db c.uid c.rid c.score c.comment rf hv hf]
      have hrf : rf.id = c.rid := (idB_iff c.rid rf).1 (List.find?_some hf)
      have hcount : db.recipes.countP (idB c.rid) ≤ 1 := countP_id_le_one db.recipes h1 c.rid
      have hmap := updateFirst_eq_map (idB c.rid)
        ({ rf with avg_rating := ratingAvg (upsertRatings db c.uid c.rid c.score c.comment) c.rid })
        db.recipes hcount
      constructor
      · show ((updateFirst (idB c.rid)
          (fun _ => { rf with
            avg_rating := ratingAvg (upsertRatings db c.uid c.rid c.score c.comment) c.rid })
          db.recipes).map (fun r => r.id)).Nodup
        rw [hmap, List.map_map]
        rw [map_congr_mem db.recipes _ (fun r => r.id) ?_]
        · exact h1
        · intro a ha
          by_cases hia : idB c.rid a = true
          · show (if idB c.rid a then _ else a).id = a.id
            rw [if_pos hia]
            show rf.id = a.id
            rw [hrf, (idB_iff c.rid a).1 hia]
          · show (if idB c.rid a then _ else a).id = a.id
            rw [if_neg hia]
      · intro b hb
        show b.avg_rating = ratingAvg (upsertRatings db c.uid c.rid c.score c.comment) b.id
        have hb' : b ∈ db.recipes.map (fun x =>
            if idB c.rid x then
              { rf with avg_rating := ratingAvg (upsertRatings db c.uid c.rid c.score c.comment) c.rid }
            else x) := by
          rw [← hmap]
          exact hb
        rcases List.mem_map.1 hb' with ⟨a, ha, hab⟩
        by_cases hia : idB c.rid a = true
        · rw [if_pos hia] at hab
          rw [← hab]
          show ratingAvg (upsertRatings db c.uid c.rid c.score c.comment) c.rid = _
          have : ({ rf with
              avg_rating := ratingAvg (upsertRatings db c.uid c.rid c.score c.comment) c.rid } :
                Recipe).id = c.rid := hrf
          rw [this]
        · rw [if_neg hia] at hab
          subst hab
          have hne : a.id ≠ c.rid := fun hc => hia ((idB_iff c.rid a).2 hc)
          rw [h2 a ha]
          exact (ratingAvg_congr db.ratings _ a.id
            (filter_rid_upsert_other db c.uid c.rid c.score c.comment a.id hne).symm)

theorem applyRates_preserves (cs : List RateCall) (db : DB)
    (h1 : NodupIds db) (h2 : AvgInv db) :
    NodupIds (applyRates db cs) ∧ AvgInv (applyRates db cs) := by
  induction cs generalizing db with
  | nil => exact ⟨h1, h2⟩
  | cons c cs ih =>
    rcases rate_preserves db c h1 h2 with ⟨h1', h2'⟩
    exact ih (applyRate db c) h1' h2'

theorem rate_call_state (db : DB) (u rid : Nat) (s : Int) (c : Option String) (r0 : Recipe)
    (hv : ¬(s < 1 ∨ 5 < s)) (hr : db.recipes.find? (idB rid) = some r0) :
    (rate_recipe db u rid s c).1.ratings = upsertRatings db u rid s c ∧
    (rate_recipe db u rid s c).1.recipes = updateFirst (idB rid)
      (fun _ => { r0 with avg_rating := ratingAvg (upsertRatings db u rid s c) rid })
      db.recipes ∧
    (rate_recipe db u rid s c).2 =
      .ok { r0 with avg_rating := ratingAvg (upsertRatings db u rid s c) rid } := by
  rw [rate_recipe_success db u rid s c r0 hv hr]
  exact ⟨rfl, rfl, rfl⟩

/-! ### Concrete fixtures used by the witnesses and counterexamples -/

/-- A stored recipe used by the concrete witnesses. -/
def wRecipe : Recipe :=
  { id := 1, owner_id := 1, title := some "Pasta Primavera", description := none,
    ingredients := some ["pasta", "peas"], steps := some ["boil pasta"],
    tags := some ["italian", "vegetarian"],
    recipe_metadata := some [("cuisine", MetaVal.str "Italian"),
      ("difficulty", MetaVal.str "easy"), ("time", MetaVal.int 25)],
    avg_rating := none, created_at := 3 }

/-- A one-recipe store with no ratings. -/
def wDB : DB :=
  { recipes := [wRecipe], ratings := [], nextRecipeId := 2, nextRatingId := 1, now := 4 }

/-! ### Consequences of the list-endpoint relation -/

theorem list_recipes_mem (db : DB) (q : Query) (out : List Recipe)
    (h : list_recipes db q out) : ∀ r ∈ out, apply_filters q r = true := by
  obtain ⟨_, l, hperm, _, hout⟩ := h
  intro r hr
  rw [hout] at hr
  have hr1 : r ∈ l := List.drop_subset _ _ (List.take_subset _ _ hr)
  exact List.of_mem_filter (hperm.mem_iff.1 hr1)

theorem list_recipes_pairwise (db : DB) (q : Query) (out : List Recipe)
    (h : list_recipes db q out) :
    out.Pairwise (fun a b => rcmp q.sort a b = true) := by
  obtain ⟨_, l, _, hpair, hout⟩ := h
  rw [hout]
  exact hpair.sublist ((List.take_sublist _ _).trans (List.drop_sublist _ _))

theorem list_recipes_length (db : DB) (q : Query) (out : List Recipe)
    (h : list_recipes db q out) : out.length ≤ qLimit q := by
  obtain ⟨_, l, _, _, hout⟩ := h
  rw [hout]
  exact List.length_take_le _ _

theorem list_recipes_empty_of_filter_none (db : DB) (q : Query) (out : List Recipe)
    (h : list_recipes db q out) (hfil : filteredRecipes db q = []) : out = [] := by
  obtain ⟨_, l, hperm, _, hout⟩ := h
  rw [hfil] at hperm
  rw [hout, hperm.eq_nil, List.drop_nil, List.take_nil]

/-! ### Claim C1 -/

/-- C1: after any completed sequence of `rate_recipe` calls, every stored
recipe's `avg_rating` is null iff no rating row exists for that recipe, and
otherwise equals the arithmetic (unrounded) mean of the rating values of all
current rating rows for that recipe.  (The starting state satisfies the
primary-key and derived-average invariants of the store.) -/
theorem c1_avg_rating_invariant (db : DB) (cs : List RateCall)
    (h1 : NodupIds db) (h2 : AvgInv db) :
    ∀ r ∈ (applyRates db cs).recipes,
      (r.avg_rating = none ↔
        (applyRates db cs).ratings.filter (fun rr => rr.recipe_id == r.id) = []) ∧
      ((applyRates db cs).ratings.filter (fun rr => rr.recipe_id == r.id) ≠ [] →
        r.avg_rating = some (avgOf (((applyRates db cs).ratings.filter
          (fun rr => rr.recipe_id == r.id)).map (fun rr => rr.rating)))) := by
  intro r hr
  have hinv := (applyRates_preserves cs db h1 h2).2 r hr
  rw [ratingAvg] at hinv
  by_cases he : (applyRates db cs).ratings.filter (fun rr => rr.recipe_id == r.id) = []
  · rw [he] at hinv
    simp only [List.isEmpty_nil, if_pos] at hinv
    exact ⟨⟨fun _ => he, fun _ => hinv⟩, fun hne => absurd he hne⟩
  · rw [if_neg (by simpa [List.isEmpty_iff] using he)] at hinv
    refine ⟨⟨fun h0 => ?_, fun h0 => absurd h0 he⟩, fun _ => hinv⟩
    rw [h0] at hinv
    exact absurd hinv.symm (Option.some_ne_none _)

/-- Witness for c1: in a one-recipe store a completed call sequence (here one
rejected rate call) leaves the null average matching the empty rating set. -/
theorem c1_witness :
    (wRecipe.avg_rating = none ↔
      (applyRates wDB [⟨7, 1, 9, none⟩]).ratings.filter
        (fun rr => rr.recipe_id == wRecipe.id) = []) ∧
    ((applyRates wDB [⟨7, 1, 9, none⟩]).ratings.filter
        (fun rr => rr.recipe_id == wRecipe.id) ≠ [] →
      wRecipe.avg_rating = some (avgOf (((applyRates wDB [⟨7, 1, 9, none⟩]).ratings.filter
        (fun rr => rr.recipe_id == wRecipe.id)).map (fun rr => rr.rating)))) :=
  c1_avg_rating_invariant wDB [⟨7, 1, 9, none⟩] (by decide) (by decide) wRecipe (by decide)

/-! ### Claim C2 -/

/-- C2: two successive `rate_recipe` calls by the same user for the same
recipe leave exactly one rating row for the `(user_id, recipe_id)` pair (the
second call overwrites the first row's score and comment in place, keeping
its row id); every other rating row is untouched, and the recipe's stored
average afterwards is the aggregate of the current rating rows, in which the
user contributes only the latest score. -/
theorem c2_double_rating_upserts (db : DB) (u rid : Nat) (s1 s2 : Int)
    (c1 c2 : Option String) (r0 : Recipe)
    (hu : UniqPairs db.ratings) (hr : db.recipes.find? (idB rid) = some r0)
    (hs1 : 1 ≤ s1) (hs1' : s1 ≤ 5) (hs2 : 1 ≤ s2) (hs2' : s2 ≤ 5) :
    ∃ i : Nat,
      (rate_recipe db u rid s1 c1).1.ratings.filter (pairB u rid) =
        [{ id := i, user_id := u, recipe_id := rid, rating := s1, comment := c1 }] ∧
      (rate_recipe (rate_recipe db u rid s1 c1).1 u rid s2 c2).1.ratings.filter
          (pairB u rid) =
        [{ id := i, user_id := u, recipe_id := rid, rating := s2, comment := c2 }] ∧
      (rate_recipe (rate_recipe db u rid s1 c1).1 u rid s2 c2).1.ratings.filter
          (fun rr => !(pairB u rid rr)) =
        db.ratings.filter (fun rr => !(pairB u rid rr)) ∧
      ∃ r' : Recipe,
        (rate_recipe (rate_recipe db u rid s1 c1).1 u rid s2 c2).1.recipes.find?
            (idB rid) = some r' ∧
        r'.avg_rating =
          ratingAvg (rate_recipe (rate_recipe db u rid s1 c1).1 u rid s2 c2).1.ratings
            rid := by
  have hv1 : ¬(s1 < 1 ∨ 5 < s1) := by omega
  have hv2 : ¬(s2 < 1 ∨ 5 < s2) := by omega
  have hr0id : r0.id = rid := (idB_iff rid r0).1 (List.find?_some hr)
  obtain ⟨hx1, hx2, _⟩ := rate_call_state db u rid s1 c1 r0 hv1 hr
  -- the single rating row left by the first call
  have hone : ∃ i : Nat, (upsertRatings db u rid s1 c1).filter (pairB u rid) =
      [{ id := i, user_id := u, recipe_id := rid, rating := s1, comment := c1 }] := by
    cases hc : db.ratings.find? (pairB u rid) with
    | none => exact ⟨db.nextRatingId, filter_pair_upsert_new db u rid s1 c1 hc⟩
    | some e => exact ⟨e.id, filter_pair_upsert_found db u rid s1 c1 e hc
        (countP_pair_le_one db.ratings hu u rid)⟩
  obtain ⟨i, hfilter1⟩ := hone
  have hAuniq : UniqPairs (upsertRatings db u rid s1 c1) :=
    uniqPairs_upsert db u rid s1 c1 hu
  have hAcount : (upsertRatings db u rid s1 c1).countP (pairB u rid) ≤ 1 :=
    countP_pair_le_one _ hAuniq u rid
  have hAfind : (upsertRatings db u rid s1 c1).find? (pairB u rid) =
      some { id := i, user_id := u, recipe_id := rid, rating := s1, comment := c1 } := by
    rw [find?_eq_head?_filter, hfilter1]
    rfl
  -- the recipe row stored by the first call
  have hrec1 : (rate_recipe db u rid s1 c1).1.recipes.find? (idB rid) =
      some { r0 with avg_rating := ratingAvg (upsertRatings db u rid s1 c1) rid } := by
    rw [hx2]
    exact find?_updateFirst_pos (idB rid) _ db.recipes r0 hr ((idB_iff rid _).2 hr0id)
  obtain ⟨hy1, hy2, _⟩ := rate_call_state (rate_recipe db u rid s1 c1).1 u rid s2 c2
    { r0 with avg_rating := ratingAvg (upsertRatings db u rid s1 c1) rid } hv2 hrec1
  have hBfindArg : (rate_recipe db u rid s1 c1).1.ratings.find? (pairB u rid) =
      some { id := i, user_id := u, recipe_id := rid, rating := s1, comment := c1 } := by
    rw [hx1]
    exact hAfind
  have hBcountArg : (rate_recipe db u rid s1 c1).1.ratings.countP (pairB u rid) ≤ 1 := by
    rw [hx1]
    exact hAcount
  refine ⟨i, by rw [hx1]; exact hfilter1, ?_, ?_, ?_⟩
  · rw [hy1]
    exact filter_pair_upsert_found (rate_recipe db u rid s1 c1).1 u rid s2 c2 _
      hBfindArg hBcountArg
  · rw [hy1]
    have t1 := filter_notpair_upsert (rate_recipe db u rid s1 c1).1 u rid s2 c2
    have t2 := filter_notpair_upsert db u rid s1 c1
    rw [hx1] at t1
    exact t1.trans t2
  · refine ⟨{ { r0 with avg_rating := ratingAvg (upsertRatings db u rid s1 c1) rid } with
      avg_rating := ratingAvg (upsertRatings (rate_recipe db u rid s1 c1).1 u rid s2 c2)
        rid }, ?_, ?_⟩
    · rw [hy2]
      exact find?_updateFirst_pos (idB rid) _ _ _ hrec1 ((idB_iff rid _).2 hr0id)
    · rw [hy1]

/-- Witness for c2: rating the fixture recipe twice as user 7 with scores 4
then 2 leaves a single pair row carrying the latest score. -/
theorem c2_witness :
    ∃ i : Nat,
      (rate_recipe wDB 7 1 4 none).1.ratings.filter (pairB 7 1) =
        [{ id := i, user_id := 7, recipe_id := 1, rating := 4, comment := none }] ∧
      (rate_recipe (rate_recipe wDB 7 1 4 none).1 7 1 2 none).1.ratings.filter
          (pairB 7 1) =
        [{ id := i, user_id := 7, recipe_id := 1, rating := 2, comment := none }] ∧
      (rate_recipe (rate_recipe wDB 7 1 4 none).1 7 1 2 none).1.ratings.filter
          (fun rr => !(pairB 7 1 rr)) =
        wDB.ratings.filter (fun rr => !(pairB 7 1 rr)) ∧
      ∃ r' : Recipe,
        (rate_recipe (rate_recipe wDB 7 1 4 none).1 7 1 2 none).1.recipes.find?
            (idB 1) = some r' ∧
        r'.avg_rating =
          ratingAvg (rate_recipe (rate_recipe wDB 7 1 4 none).1 7 1 2 none).1.ratings 1 :=
  c2_double_rating_upserts wDB 7 1 4 2 none none wRecipe (by decide) (by decide)
    (by decide) (by decide) (by decide) (by decide)

/-! ### Claim C8 -/

/-- A partial update carrying only a title. -/
def wTitleUpd : RecipeUpdate := { title := .setTo (some "Pasta Deluxe") }

/-- C8: an owner's `update_recipe` stores exactly the supplied partial
update: every field absent from the request keeps its previous value, and in
particular a title-only update changes the title and nothing else. -/
theorem c8_update_partial_frame (db : DB) (rid uid : Nat) (u : RecipeUpdate)
    (r0 : Recipe) (hf : db.recipes.find? (idB rid) = some r0)
    (hown : r0.owner_id = uid) :
    update_recipe db rid uid u =
      ({ db with recipes := updateFirst (idB rid) (fun _ => applyUpd r0 u) db.recipes },
        .ok (applyUpd r0 u)) ∧
    (u.title = .unset → (applyUpd r0 u).title = r0.title) ∧
    (u.description = .unset → (applyUpd r0 u).description = r0.description) ∧
    (u.ingredients = .unset → (applyUpd r0 u).ingredients = r0.ingredients) ∧
    (u.steps = .unset → (applyUpd r0 u).steps = r0.steps) ∧
    (u.tags = .unset → (applyUpd r0 u).tags = r0.tags) ∧
    (u.metadata = .unset → (applyUpd r0 u).recipe_metadata = r0.recipe_metadata) ∧
    (∀ t : String,
      applyUpd r0 { title := .setTo (some t) } = { r0 with title := some t }) := by
  refine ⟨?_, ?_, ?_, ?_, ?_, ?_, fun _ => rfl, fun t => rfl⟩
  · rw [update_recipe, hf]
    dsimp only
    rw [if_neg (fun h => h hown)]
  · intro h
    simp [applyUpd, h]
  · intro h
    simp [applyUpd, h]
  · intro h
    simp [applyUpd, h]
  · intro h
    simp [applyUpd, h]
  · intro h
    simp [applyUpd, h]

/-- Witness for c8: a title-only update of the fixture recipe stores the new
title and leaves the tags (and every other absent field) unchanged. -/
theorem c8_witness :
    update_recipe wDB 1 1 wTitleUpd =
      ({ wDB with
          recipes := updateFirst (idB 1) (fun _ => applyUpd wRecipe wTitleUpd) wDB.recipes },
        .ok (applyUpd wRecipe wTitleUpd)) ∧
    (applyUpd wRecipe wTitleUpd).tags = wRecipe.tags := by
  have h := c8_update_partial_frame wDB 1 1 wTitleUpd wRecipe (by decide) (by decide)
  exact ⟨h.1, h.2.2.2.2.2.1 rfl⟩

/-! ### Claim C9 -/

/-- C9: a rate call with an out-of-range score fails validation before any
write (the state is returned unchanged), and a rate call for a nonexistent
recipe id fails with NotFound and performs no write. -/
theorem c9_rate_failures_no_write (db : DB) (uid rid : Nat) (s : Int)
    (c : Option String) :
    ((s < 1 ∨ 5 < s) → rate_recipe db uid rid s c = (db, .error .validationError)) ∧
    (1 ≤ s → s ≤ 5 → db.recipes.find? (idB rid) = none →
      rate_recipe db uid rid s c = (db, .error .notFound)) :=
  ⟨fun hv => rate_recipe_invalid db uid rid s c hv,
   fun h1 h2 hf => rate_recipe_notFound db uid rid s c (by omega) hf⟩

/-- Witness for c9: score 9 is rejected with a validation failure and no
state change, and rating the absent recipe id 2 yields NotFound and no state
change. -/
theorem c9_witness :
    rate_recipe wDB 7 1 9 none = (wDB, .error .validationError) ∧
    rate_recipe wDB 7 2 4 none = (wDB, .error .notFound) :=
  ⟨(c9_rate_failures_no_write wDB 7 1 9 none).1 (by decide),
   (c9_rate_failures_no_write wDB 7 2 4 none).2 (by decide) (by decide) (by decide)⟩

/-! ### Claim C10 -/

/-- A partial update carrying only a metadata mapping. -/
def wMetaUpd : RecipeUpdate := { metadata := .setTo (some [("time", MetaVal.int 99)]) }

/-- A create request that supplies a metadata mapping. -/
def wCreate : RecipeCreate :=
  { title := "Soup", metadata := some [("cuisine", MetaVal.str "French")] }

/-- C10: both handlers assign the supplied metadata to the attribute name
`metadata`, which is not the mapped column, so the stored `recipe_metadata`
is null after a create (whatever metadata the caller supplied) and unchanged
after an update. -/
theorem c10_metadata_assignment_lost (db : DB) (uid : Nat) (rc : RecipeCreate)
    (rid uid2 : Nat) (u : RecipeUpdate) :
    (create_recipe db uid rc).2.recipe_metadata = none ∧
    (create_recipe db uid rc).1.recipes = db.recipes ++ [(create_recipe db uid rc).2] ∧
    (∀ db' r', update_recipe db rid uid2 u = (db', .ok r') →
      ∃ r0, db.recipes.find? (idB rid) = some r0 ∧
        r'.recipe_metadata = r0.recipe_metadata) := by
  refine ⟨rfl, rfl, ?_⟩
  intro db' r' h
  rw [update_recipe] at h
  cases hf : db.recipes.find? (idB rid) with
  | none =>
    rw [hf] at h
    simp at h
  | some r0 =>
    rw [hf] at h
    dsimp only at h
    by_cases ho : r0.owner_id ≠ uid2
    · rw [if_pos ho] at h
      simp at h
    · rw [if_neg ho] at h
      have h2 : (Except.ok (applyUpd r0 u) : Except ApiError Recipe) = .ok r' :=
        congrArg Prod.snd h
      simp only [Except.ok.injEq] at h2
      refine ⟨r0, rfl, ?_⟩
      rw [← h2]
      rfl

/-- Witness for c10: creating from a request with metadata stores a null
`recipe_metadata`, and a metadata-only update leaves the stored
`recipe_metadata` of the fixture recipe unchanged. -/
theorem c10_witness :
    (create_recipe wDB 1 wCreate).2.recipe_metadata = none ∧
    (∃ r0, wDB.recipes.find? (idB 1) = some r0 ∧
      (applyUpd wRecipe wMetaUpd).recipe_metadata = r0.recipe_metadata) := by
  have h := c10_metadata_assignment_lost wDB 1 wCreate 1 1 wMetaUpd
  exact ⟨h.1, h.2.2 (update_recipe wDB 1 1 wMetaUpd).1 (applyUpd wRecipe wMetaUpd) rfl⟩

/-! ### Claim C3 -/

/-- C3: a tag-filtered `list_recipes` query returns no recipe at all — each
per-tag criterion is `func.cast(Recipe.tags, func.TEXT).like('%t%')`, whose
rendered SQL `cast(tags, ?)` is a SQLite syntax error, so the request raises
and in particular never applies the claimed tag-set containment: even a
recipe carrying every requested tag is not returned. -/
theorem c3_tag_filter_returns_nothing (db : DB) (q : Query) (out : List Recipe)
    (h : list_recipes db q out) (tl : List String) (htl : q.tags = some tl)
    (hne : tl ≠ []) : out = [] := by
  refine list_recipes_empty_of_filter_none db q out h ?_
  rw [filteredRecipes, List.filter_eq_nil_iff]
  intro r hr
  have hie : tl.isEmpty = false := by
    simp [List.isEmpty_iff, hne]
  simp [apply_filters, htl, hie]

/-- Witness for c3: the fixture recipe is tagged vegetarian, yet the query
filtering for that tag validly returns only the empty page. -/
theorem c3_witness :
    list_recipes wDB { tags := some ["vegetarian"] } [] ∧
    (∃ ts, wRecipe.tags = some ts ∧ "vegetarian" ∈ ts) ∧
    ([] : List Recipe) = [] := by
  have hlist : list_recipes wDB { tags := some ["vegetarian"] } [] := by
    refine ⟨by decide, [], ?_, List.Pairwise.nil, by decide⟩
    rw [(by decide : filteredRecipes wDB { tags := some ["vegetarian"] } = [])]
  exact ⟨hlist, ⟨["italian", "vegetarian"], rfl, by decide⟩,
    c3_tag_filter_returns_nothing wDB { tags := some ["vegetarian"] } [] hlist
      ["vegetarian"] rfl (by decide)⟩

/-! ### Claim C4 -/

/-- C4: a time-bounded `list_recipes` query returns no recipe at all — the
min/max filters test the end-anchored pattern `'%"time":'` against an operand
that is not the recipe's metadata and perform no numeric comparison, so the
assembled criterion holds for no row. -/
theorem c4_time_bound_returns_nothing (db : DB) (q : Query) (out : List Recipe)
    (h : list_recipes db q out)
    (hq : q.min_time ≠ none ∨ q.max_time ≠ none) : out = [] := by
  refine list_recipes_empty_of_filter_none db q out h ?_
  rw [filteredRecipes, List.filter_eq_nil_iff]
  intro r hr
  rcases hq with hmn | hmx
  · obtain ⟨v, hv⟩ := Option.ne_none_iff_exists'.1 hmn
    simp [apply_filters, hv]
  · obtain ⟨v, hv⟩ := Option.ne_none_iff_exists'.1 hmx
    simp [apply_filters, hv]

/-- Witness for c4: the fixture store holds a recipe whose metadata time is
25, yet the query with bounds 20..30 validly returns the empty page. -/
theorem c4_witness :
    list_recipes wDB { min_time := some 20, max_time := some 30 } [] ∧
    ([] : List Recipe) = [] := by
  have hlist : list_recipes wDB { min_time := some 20, max_time := some 30 } [] := by
    refine ⟨by decide, [], ?_, List.Pairwise.nil, by decide⟩
    rw [(by decide : filteredRecipes wDB { min_time := some 20, max_time := some 30 } = [])]
  exact ⟨hlist, c4_time_bound_returns_nothing wDB
    { min_time := some 20, max_time := some 30 } [] hlist (Or.inl (by decide))⟩

/-! ### Claim C5 -/

/-- C5: a cuisine- or difficulty-filtered `list_recipes` query returns no
recipe at all — the LIKE operand `cast(Recipe.metadata, TEXT)` does not
reference the `recipe_metadata` column (the attribute `metadata` is the
reserved registry attribute), so the facet criterion holds for no row. -/
theorem c5_facet_filter_returns_nothing (db : DB) (q : Query) (out : List Recipe)
    (h : list_recipes db q out)
    (hq : (∃ cz, q.cuisine = some cz ∧ cz ≠ "") ∨
      (∃ dz, q.difficulty = some dz ∧ dz ≠ "")) : out = [] := by
  refine list_recipes_empty_of_filter_none db q out h ?_
  rw [filteredRecipes, List.filter_eq_nil_iff]
  intro r hr
  rcases hq with ⟨cz, hcz, hcz'⟩ | ⟨dz, hdz, hdz'⟩
  · simp [apply_filters, hcz, hcz']
  · simp [apply_filters, hdz, hdz']

/-- Witness for c5: the fixture recipe's stored metadata says its cuisine is
exactly Italian, yet the query filtering for Italian validly returns the
empty page. -/
theorem c5_witness :
    list_recipes wDB { cuisine := some "Italian" } [] ∧
    ([] : List Recipe) = [] := by
  have hlist : list_recipes wDB { cuisine := some "Italian" } [] := by
    refine ⟨by decide, [], ?_, List.Pairwise.nil, by decide⟩
    rw [(by decide : filteredRecipes wDB { cuisine := some "Italian" } = [])]
  exact ⟨hlist, c5_facet_filter_returns_nothing wDB { cuisine := some "Italian" } []
    hlist (Or.inl ⟨"Italian", rfl, by decide⟩)⟩

/-! ### Claims C6 and C7: fixtures -/

/-- A rated recipe (average 1) created at the same instant as `wRecipe`. -/
def wR2 : Recipe :=
  { id := 2, owner_id := 1, title := some "Soup", description := none,
    ingredients := none, steps := none, tags := none, recipe_metadata := none,
    avg_rating := some 1, created_at := 3 }

/-- A newer recipe with no ratings yet (null average). -/
def wR3 : Recipe :=
  { id := 3, owner_id := 1, title := some "Cake", description := none,
    ingredients := none, steps := none, tags := none, recipe_metadata := none,
    avg_rating := none, created_at := 9 }

/-- Store holding one rated and one unrated recipe — the configuration the
rating sort is meant to order. -/
def c6DB : DB :=
  { recipes := [wR3, wR2], ratings := [], nextRecipeId := 4, nextRatingId := 1, now := 10 }

/-- Store with two recipes sharing one creation instant (a sort-key tie). -/
def c7DB : DB :=
  { recipes := [wRecipe, wR2], ratings := [], nextRecipeId := 3, nextRatingId := 1, now := 4 }

/-! ### Claim C6 -/

/-- C6: a `sort=rating` listing yields no page at all — the handler's
`desc(Recipe.avg_rating.nullslast())` renders the un-executable
`ORDER BY avg_rating NULLS LAST DESC`, so the request raises instead of
returning recipes in any order; in particular the claimed null-last
descending order of returned recipes never materializes. -/
theorem c6_rating_sort_raises (db : DB) (q : Query) (out : List Recipe)
    (hsort : q.sort = some "rating") : ¬ list_recipes db q out := by
  intro h
  have hex := h.1
  rw [orderByExecutes, hsort] at hex
  exact absurd hex (by decide)

/-- Witness for c6: over the store holding one rated and one unrated recipe,
no response — in particular not the intended rated-first page — is related
to the rating-sorted query. -/
theorem c6_witness :
    ¬ list_recipes c6DB { sort := some "rating" } [wR2, wR3] :=
  c6_rating_sort_raises c6DB { sort := some "rating" } [wR2, wR3] rfl

/-! ### Claim C7 -/

/-- C7 counterexample: the `ORDER BY` carries no identity tiebreaker, so for
two recipes tied on the sort key a valid full listing may place the higher id
first, and valid executions of consecutive one-row pages may both return the
same recipe — the pages are not disjoint slices of one fixed sequence. -/
theorem c7_counterexample :
    list_recipes c7DB {} [wR2, wRecipe] ∧
    wRecipe.created_at = wR2.created_at ∧
    wRecipe.id < wR2.id ∧
    list_recipes c7DB { page := some 1, page_size := some 1 } [wR2] ∧
    list_recipes c7DB { page := some 2, page_size := some 1 } [wR2] := by
  refine ⟨⟨by decide, [wR2, wRecipe], List.Perm.swap wRecipe wR2 [], by decide, rfl⟩,
    rfl, by decide,
    ⟨by decide, [wR2, wRecipe], List.Perm.swap wRecipe wR2 [], by decide, rfl⟩,
    ⟨by decide, [wRecipe, wR2], List.Perm.refl _, by decide, rfl⟩⟩

/-- C7 amended: every page returned by `list_recipes` is an offset/limit
slice of some ordering of the filtered rows that is consistent with the
requested sort key: within the page the rows are pairwise ordered by the
key, every row passes the filters, and the page length is at most the limit;
rows tied on the key carry no identity tiebreaker, so neither a fixed tie
order nor disjointness of consecutive pages is guaranteed. -/
theorem c7_page_is_sorted_slice (db : DB) (q : Query) (out : List Recipe)
    (h : list_recipes db q out) :
    out.Pairwise (fun a b => rcmp q.sort a b = true) ∧
    (∀ r ∈ out, apply_filters q r = true) ∧
    out.length ≤ qLimit q :=
  ⟨list_recipes_pairwise db q out h, list_recipes_mem db q out h,
    list_recipes_length db q out h⟩

/-- Witness for c7: a valid default-sorted full listing of the tied store is
pairwise ordered under the key, passes the (empty) filters, and fits the
default limit. -/
theorem c7_witness :
    [wR2, wRecipe].Pairwise (fun a b => rcmp ({} : Query).sort a b = true) ∧
    apply_filters {} wR2 = true ∧
    ([wR2, wRecipe] : List Recipe).length ≤ qLimit {} := by
  have hlist : list_recipes c7DB {} [wR2, wRecipe] :=
    ⟨by decide, [wR2, wRecipe], List.Perm.swap wRecipe wR2 [], by decide, rfl⟩
  have h := c7_page_is_sorted_slice c7DB {} [wR2, wRecipe] hlist
  exact ⟨h.1, h.2.1 wR2 (by decide), h.2.2⟩

end RecipeExplorer
